import Mathlib

/-!
Shallow embedding of `zerver/lib/slack_data_to_zulip_data.py` (Slack → Zulip
data converter), restricted to the components the specification describes:
the markdown rewrite `convert_to_zulip_markdown` with its helpers
`convert_markdown_syntax` and `get_user_mentions`, the display-name helper
`get_user_full_name`, and the per-message loop of
`channel_message_to_zerver_message`.

Text is modelled as `List Char`.  The Python regexes (compiled with
`re.VERBOSE`) are embedded as explicit backtracking matchers that reproduce
the leftmost-match, greedy-with-backtracking semantics of the `re` module,
including the `^` anchor (start of string) and the `$` anchor (end of
string, or just before a single trailing newline).  Exceptions that can
escape the Python functions (`UnboundLocalError` in `get_user_mentions`,
`KeyError` on dictionary lookups) are modelled by `Option`: `none` means
the call raises.  `re.sub` replacement templates are inserted literally;
the texts considered never put backslashes into a replacement.
-/

namespace SlackImport

abbrev Chars := List Char

/-- Character class `[a-zA-Z0-9]` used by `SLACK_USERMENTION_REGEX`. -/
def isAlnum (c : Char) : Bool :=
  (97 ≤ c.val && c.val ≤ 122) || (65 ≤ c.val && c.val ≤ 90) || (48 ≤ c.val && c.val ≤ 57)

/-- Character class `[a-z]` of `LINK_REGEX`. -/
def lowerAZ (c : Char) : Bool := 97 ≤ c.val && c.val ≤ 122

/-- Character class `[0-9]` of `LINK_REGEX`. -/
def digit09 (c : Char) : Bool := 48 ≤ c.val && c.val ≤ 57

/-- Character class `[a-z0-9]` of `LINK_REGEX`. -/
def lowerAlnum (c : Char) : Bool := lowerAZ c || digit09 c

/-- Group 1 of the three delimiter regexes: one character drawn from the
ranges space..40, 43..47, 58..63 or one of the four characters with codes
123, 91, 124, 94. The `^`-anchor alternative is handled separately by the
matcher. -/
def boundL (c : Char) : Bool :=
  (32 ≤ c.val && c.val ≤ 40) || (43 ≤ c.val && c.val ≤ 47) ||
  (58 ≤ c.val && c.val ≤ 63) || c.val = 123 || c.val = 91 || c.val = 124 || c.val = 94

/-- Group 6 of the three delimiter regexes: one character drawn from the
ranges space..39, 43..47, 58..63 or one of the five characters with codes
125, 41, 93, 124, 94. The `$`-anchor alternative is handled separately by
the matcher. -/
def boundR (c : Char) : Bool :=
  (32 ≤ c.val && c.val ≤ 39) || (43 ≤ c.val && c.val ≤ 47) ||
  (58 ≤ c.val && c.val ≤ 63) || c.val = 125 || c.val = 41 || c.val = 93 || c.val = 124 || c.val = 94

/-- Group 3 class of `SLACK_STRIKETHROUGH_REGEX`: codes 32..41, 43..125, or the em dash. -/
def strikeInner (c : Char) : Bool :=
  (32 ≤ c.val && c.val ≤ 41) || (43 ≤ c.val && c.val ≤ 125) || c = '—'

/-- Group 3 class of `SLACK_ITALIC_REGEX` and `SLACK_BOLD_REGEX`: codes 32..126 or the em dash. -/
def wideInner (c : Char) : Bool :=
  (32 ≤ c.val && c.val ≤ 126) || c = '—'

/-- Group 4 class `[!-}]` shared by the three delimiter regexes. -/
def g4class (c : Char) : Bool :=
  33 ≤ c.val && c.val ≤ 125

/-- A delimiter regex of the source is determined by its delimiter character
(group 2 and group 5) and its group 3 character class; the boundary groups 1
and 6 and the group 4 class are shared by all three. -/
structure DelimRegex where
  delim : Char
  inner3 : Char → Bool

/-- `SLACK_STRIKETHROUGH_REGEX` of the source. -/
def SLACK_STRIKETHROUGH_REGEX : DelimRegex := ⟨'~', strikeInner⟩

/-- `SLACK_ITALIC_REGEX` of the source. -/
def SLACK_ITALIC_REGEX : DelimRegex := ⟨'_', wideInner⟩

/-- `SLACK_BOLD_REGEX` of the source. -/
def SLACK_BOLD_REGEX : DelimRegex := ⟨'*', wideInner⟩

/-- A match of a delimiter regex: the captured groups 1, 3, 4 and 6.
Groups 2 and 5 are always the delimiter character. -/
structure DelimMatch where
  g1 : Chars
  g3 : Chars
  g4 : Chars
  g6 : Chars
  deriving Repr, DecidableEq

/-- Total length of a delimiter-regex match (groups 2 and 5 are one
delimiter character each). -/
def dmLen (m : DelimMatch) : Nat :=
  m.g1.length + 1 + m.g3.length + m.g4.length + 1 + m.g6.length

/-- Group 6 at a suffix: the `$` alternative is preferred (it matches at the
end of the string or just before a single trailing newline), otherwise one
`boundR` character is consumed. -/
def matchG6 (s : Chars) : Option Chars :=
  if s = [] || s = ['\n'] then some []
  else
    match s with
    | c :: _ => if boundR c then some [c] else none
    | [] => none

/-- Groups 4–6 of a delimiter regex at the suffix following group 3: group 4
is `[!-}]+` (greedy, length tried from `k` down to 1), then the closing
delimiter, then group 6. Returns `(g4, g6)`. -/
def match456 (d : Char) : Nat → Chars → Option (Chars × Chars)
  | 0, _ => none
  | k + 1, s =>
    let g4 := s.take (k + 1)
    if g4.length = k + 1 && g4.all g4class then
      match s.drop (k + 1) with
      | c :: r =>
        if c = d then
          match matchG6 r with
          | some g6 => some (g4, g6)
          | none => match456 d k s
        else match456 d k s
      | [] => match456 d k s
    else match456 d k s

/-- Groups 3–6 of a delimiter regex at the suffix following the opening
delimiter: group 3 is greedy (length tried from `k` down to 0).
Returns `(g3, g4, g6)`. -/
def match36 (rx : DelimRegex) : Nat → Chars → Option (Chars × Chars × Chars)
  | 0, s =>
    (match match456 rx.delim s.length s with
     | some (g4, g6) => some ([], g4, g6)
     | none => none)
  | k + 1, s =>
    let g3 := s.take (k + 1)
    if g3.length = k + 1 && g3.all rx.inner3 then
      match match456 rx.delim (s.drop (k + 1)).length (s.drop (k + 1)) with
      | some (g4, g6) => some (g3, g4, g6)
      | none => match36 rx k s
    else match36 rx k s

/-- Attempt to match a delimiter regex at the start of the suffix `s`.
`atStart` records whether this position is the start of the whole string:
group 1 first tries the zero-width `^` alternative (only available there)
and falls back to consuming one `boundL` character. -/
def matchDelimHere (rx : DelimRegex) (atStart : Bool) (s : Chars) : Option DelimMatch :=
  let viaStart : Option DelimMatch :=
    if atStart then
      match s with
      | c :: r =>
        if c = rx.delim then
          match match36 rx r.length r with
          | some (g3, g4, g6) => some ⟨[], g3, g4, g6⟩
          | none => none
        else none
      | [] => none
    else none
  match viaStart with
  | some m => some m
  | none =>
    match s with
    | b :: c :: r =>
      if boundL b && c = rx.delim then
        match match36 rx r.length r with
        | some (g3, g4, g6) => some ⟨[b], g3, g4, g6⟩
        | none => none
      else none
    | _ => none

/-- Leftmost match of a delimiter regex in `s`; returns the match together
with the suffix following it. -/
def searchDelim (rx : DelimRegex) : Bool → Chars → Option (DelimMatch × Chars)
  | b, s =>
    match matchDelimHere rx b s with
    | some m => some (m, s.drop (dmLen m))
    | none =>
      match s with
      | [] => none
      | _ :: r => searchDelim rx false r

/-- All non-overlapping matches of a delimiter regex, leftmost first, as
`re.finditer` produces them.  `fuel` bounds the number of matches; callers
pass the length of the text plus one, which suffices because every match
consumes at least three characters. -/
def finditerDelim (rx : DelimRegex) : Nat → Bool → Chars → List DelimMatch
  | 0, _, _ => []
  | fuel + 1, b, s =>
    match searchDelim rx b s with
    | none => []
    | some (m, rest) => m :: finditerDelim rx fuel false rest

/-- Replace every non-overlapping match of a delimiter regex by `repl`,
scanning left to right, as `re.sub` does.  `fuel` is at least the length of
the text plus one. -/
def subAllDelim (rx : DelimRegex) (repl : Chars) : Nat → Bool → Chars → Chars
  | 0, _, s => s
  | fuel + 1, b, s =>
    match matchDelimHere rx b s with
    | some m => repl ++ subAllDelim rx repl fuel false (s.drop (dmLen m))
    | none =>
      match s with
      | [] => []
      | c :: r => c :: subAllDelim rx repl fuel false r

/-- The source's `convert_markdown_syntax`: iterate over the matches found
in the original text, and for each one substitute every match in the
current text by that match's converted token
`group1 ++ keyword ++ group3 ++ group4 ++ keyword ++ group6`. -/
def convert_markdown_syntax (text : Chars) (rx : DelimRegex) (zulip_keyword : Chars) : Chars :=
  (finditerDelim rx (text.length + 1) true text).foldl
    (fun t m =>
      let converted_token := m.g1 ++ zulip_keyword ++ m.g3 ++ m.g4 ++ zulip_keyword ++ m.g6
      subAllDelim rx converted_token (t.length + 1) true t)
    text

/-- A match of `SLACK_USERMENTION_REGEX`: group 2 (the Slack id), group 4
(the optional short name; `none` when the group did not participate), and
the total matched length. -/
structure MentionMatch where
  slack_id : Chars
  short_name : Option Chars
  len : Nat
  deriving Repr, DecidableEq

/-- Groups 4 and 5 of `SLACK_USERMENTION_REGEX` at the suffix following the
optional vertical bar: group 4 is an optional `[a-zA-Z0-9]+` (greedy,
length tried from `k` down to 1, then skipped), followed by the closing
`>`.  Returns the group 4 capture and the consumed length. -/
def mention4close : Nat → Chars → Option (Option Chars × Nat)
  | 0, s =>
    (match s with
     | '>' :: _ => some (none, 1)
     | _ => none)
  | k + 1, s =>
    let g4 := s.take (k + 1)
    if g4.length = k + 1 && g4.all isAlnum then
      match s.drop (k + 1) with
      | '>' :: _ => some (some g4, (k + 1) + 1)
      | _ => mention4close k s
    else mention4close k s

/-- Group 3 of `SLACK_USERMENTION_REGEX` (the optional vertical bar,
preferred when present) followed by groups 4 and 5. -/
def mentionAfterId (s : Chars) : Option (Option Chars × Nat) :=
  match s with
  | '|' :: r =>
    (match mention4close r.length r with
     | some (g4, n) => some (g4, 1 + n)
     | none => mention4close s.length s)
  | _ => mention4close s.length s

/-- Group 2 of `SLACK_USERMENTION_REGEX` (`[a-zA-Z0-9]+`, greedy, length
tried from `k` down to 1) followed by the rest of the pattern.  Returns
group 2, group 4 and the consumed length. -/
def mention234 : Nat → Chars → Option (Chars × Option Chars × Nat)
  | 0, _ => none
  | k + 1, s =>
    let g2 := s.take (k + 1)
    if g2.length = k + 1 && g2.all isAlnum then
      match mentionAfterId (s.drop (k + 1)) with
      | some (g4, n) => some (g2, g4, (k + 1) + n)
      | none => mention234 k s
    else mention234 k s

/-- Attempt to match `SLACK_USERMENTION_REGEX` at the start of the suffix
`s` (the pattern has no anchors, so the position plays no further role).
This is what `re.compile(...).match(token)` computes on a token. -/
def matchMentionHere (s : Chars) : Option MentionMatch :=
  match s with
  | '<' :: '@' :: r =>
    (match mention234 r.length r with
     | some (g2, g4, n) => some ⟨g2, g4, 2 + n⟩
     | none => none)
  | _ => none

/-- Leftmost match of `SLACK_USERMENTION_REGEX` in `s`, as `re.search`
computes it. -/
def searchMention : Chars → Option MentionMatch
  | [] => none
  | c :: r =>
    match matchMentionHere (c :: r) with
    | some m => some m
    | none => searchMention r

/-- Replace every non-overlapping match of `SLACK_USERMENTION_REGEX` in the
token by `repl`, as `re.sub` does.  `fuel` is at least the length of the
token plus one. -/
def subAllMention (repl : Chars) : Nat → Chars → Chars
  | 0, s => s
  | fuel + 1, s =>
    match matchMentionHere s with
    | some m => repl ++ subAllMention repl fuel (s.drop m.len)
    | none =>
      match s with
      | [] => []
      | c :: r => c :: subAllMention repl fuel r

/-- One entry of the `users.json` directory, restricted to the fields the
rewrite reads: `id`, `name` (the short handle), `real_name` and `deleted`. -/
structure SlackUser where
  id : String
  name : String
  real_name : String
  deleted : Bool
  deriving Repr, DecidableEq

/-- The source's `get_user_full_name`: the real name unless the record is
deleted or the real name is empty, in which case the short handle. -/
def get_user_full_name (user : SlackUser) : String :=
  if user.deleted = false then
    if user.real_name = "" then user.name
    else user.real_name
  else user.name

/-- The source's `get_user_mentions`.  The loop over the directory binds
`full_name`, `user_id` and `mention` for every entry that satisfies the
matching rule, so the last matching entry wins; when no entry matches, the
bindings stay unset and the following use of `mention` raises
`UnboundLocalError` (modelled by `none`).  The `added_users[slack_id]`
lookup raises `KeyError` when the id is absent (also `none`). -/
def get_user_mentions (users : List SlackUser) (added_users : String → Option Nat)
    (token : Chars) : Option (Chars × Nat) :=
  match searchMention token with
  | none => none
  | some m =>
    let slack_id : String := String.mk m.slack_id
    let short_name : Option String := m.short_name.map String.mk
    let hit : Option SlackUser := users.foldl
      (fun acc user =>
        if (user.id = slack_id && (short_name.map (fun s => user.name = s && s ≠ "")).getD false) ||
           (user.id = slack_id && short_name = none) then
          some user
        else acc)
      none
    match hit with
    | none => none
    | some user =>
      match added_users slack_id with
      | none => none
      | some user_id =>
        let mention : Chars := ("@**" ++ get_user_full_name user ++ "** ").data
        some (subAllMention mention (token.length + 1) token, user_id)

/-- Link-regex candidate suffixes after consuming the optional scheme
alternation of `LINK_REGEX`, alternatives in source order plus the empty
option. -/
def schemeCands (s : Chars) : List Chars :=
  (if ("http://www.".data).isPrefixOf s then [s.drop 11] else []) ++
  (if ("https://www.".data).isPrefixOf s then [s.drop 12] else []) ++
  (if ("http://".data).isPrefixOf s then [s.drop 7] else []) ++
  (if ("https://".data).isPrefixOf s then [s.drop 8] else []) ++ [s]

/-- Candidate suffixes after consuming a nonempty run of characters in
class `p` (lengths 1 up to the maximal run). -/
def runCands (p : Char → Bool) (s : Chars) : List Chars :=
  (List.range (s.takeWhile p).length).map (fun k => s.drop (k + 1))

/-- Candidate suffixes for the starred group of `LINK_REGEX`: zero or more
repetitions of one dash-or-dot followed by a nonempty lower-alphanumeric
run. -/
def starSepRun : Nat → Chars → List Chars
  | 0, s => [s]
  | fuel + 1, s =>
    s :: (match s with
          | c :: r =>
            if c = '-' || c = '.' then (runCands lowerAlnum r).flatMap (starSepRun fuel)
            else []
          | [] => [])

/-- Candidate suffixes after the mandatory dot and two-to-five lowercase
letters of `LINK_REGEX`. -/
def tldCands (s : Chars) : List Chars :=
  match s with
  | '.' :: r =>
    (List.range 4).filterMap (fun i =>
      let k := i + 2
      if (r.take k).length = k && (r.take k).all lowerAZ then some (r.drop k) else none)
  | _ => []

/-- Candidate suffixes after the optional colon-and-one-to-five-digits port
group of `LINK_REGEX`. -/
def portCands (s : Chars) : List Chars :=
  s :: (match s with
        | ':' :: r =>
          (List.range 5).filterMap (fun i =>
            let k := i + 1
            if (r.take k).length = k && (r.take k).all digit09 then some (r.drop k) else none)
        | _ => [])

/-- Candidate suffixes after the optional slash-then-anything path group of
`LINK_REGEX` (the dot of the pattern does not match a newline). -/
def slashPathCands (s : Chars) : List Chars :=
  s :: (match s with
        | '/' :: r =>
          (List.range ((r.takeWhile (fun c => c ≠ '\n')).length + 1)).map (fun k => r.drop k)
        | _ => [])

/-- Candidate suffixes after the optional bare vertical bar of
`LINK_REGEX`. -/
def pipeCands (s : Chars) : List Chars :=
  s :: (match s with
        | '|' :: r => [r]
        | _ => [])

/-- Candidate suffixes after the optional vertical-bar-and-label group of
`LINK_REGEX` (the label is one or more characters other than `>`). -/
def labelCands (s : Chars) : List Chars :=
  s :: (match s with
        | '|' :: r =>
          (List.range (r.takeWhile (fun c => c ≠ '>')).length).map (fun k => r.drop (k + 1))
        | _ => [])

/-- The closing `>` of `LINK_REGEX` followed by the `$` anchor (end of
string, or just before a single trailing newline). -/
def closeEnd (s : Chars) : Bool :=
  match s with
  | '>' :: r => r = [] || r = ['\n']
  | _ => false

/-- Whether `LINK_REGEX` matches the token, as
`re.compile(LINK_REGEX, re.VERBOSE).match(token)` decides it (the pattern
is anchored by `^` and `$`). -/
def linkMatch (token : Chars) : Bool :=
  match token with
  | '<' :: s =>
    ((schemeCands s).flatMap (fun a =>
      (runCands lowerAlnum a).flatMap (fun b =>
        (starSepRun b.length b).flatMap (fun c =>
          (tldCands c).flatMap (fun d =>
            (portCands d).flatMap (fun e =>
              (slashPathCands e).flatMap (fun f =>
                (pipeCands f).flatMap labelCands))))))).any closeEnd
  | _ => false

/-- The Python `token.replace(sep, '')` composition used on link tokens:
every `<` and every `>` is removed. -/
def removeAngles (s : Chars) : Chars :=
  (s.filter (fun c => c ≠ '<')).filter (fun c => c ≠ '>')

/-- The Python `str.replace` with a nonempty pattern: every non-overlapping
occurrence, scanning left to right, is replaced.  `fuel` is at least the
length of the text plus one. -/
def replaceAllSub (pat repl : Chars) : Nat → Chars → Chars
  | 0, s => s
  | fuel + 1, s =>
    if pat.isPrefixOf s then repl ++ replaceAllSub pat repl fuel (s.drop pat.length)
    else
      match s with
      | [] => []
      | c :: r => c :: replaceAllSub pat repl fuel r

/-- The Python `text.split(' ')`. -/
def splitSp : Chars → List Chars
  | [] => [[]]
  | c :: r =>
    if c = ' ' then [] :: splitSp r
    else
      match splitSp r with
      | t :: ts => (c :: t) :: ts
      | [] => [[c]]

/-- The Python `' '.join(tokens)`. -/
def joinSp : List Chars → Chars
  | [] => []
  | t :: ts => t ++ ts.flatMap (fun u => ' ' :: u)

/-- The body of the token loop of `convert_to_zulip_markdown` for one
token: the mention check and rewrite (whose failure propagates), then the
link check on the possibly rewritten token.  Returns the final token, the
mention id appended for this token if any, and whether a link was seen. -/
def tokenStep (users : List SlackUser) (added_users : String → Option Nat)
    (token : Chars) : Option (Chars × Option Nat × Bool) :=
  let step1 : Option (Chars × Option Nat) :=
    match matchMentionHere token with
    | some _ =>
      (match get_user_mentions users added_users token with
       | none => none
       | some (tok, uid) => some (tok, some uid))
    | none => some (token, none)
  match step1 with
  | none => none
  | some (tok, uid) =>
    if linkMatch tok then some (removeAngles tok, uid, true)
    else some (tok, uid, false)

/-- The token loop of `convert_to_zulip_markdown` over the whole token
list, accumulating the rewritten tokens, the mentioned user ids in order,
and the link flag. -/
def tokenLoop (users : List SlackUser) (added_users : String → Option Nat) :
    List Chars → Option (List Chars × List Nat × Bool)
  | [] => some ([], [], false)
  | t :: ts =>
    match tokenStep users added_users t with
    | none => none
    | some (t2, uid, link2) =>
      match tokenLoop users added_users ts with
      | none => none
      | some (ts2, uids, link) =>
        some (t2 :: ts2,
              (match uid with
               | some u => u :: uids
               | none => uids),
              link2 || link)

/-- The source's `convert_to_zulip_markdown`: the three delimiter passes in
order (strikethrough, italic, bold), the literal replacement of
`<!everyone>`, the split into space-delimited tokens, the mention and link
processing of each token, and the rejoin.  `none` models an exception
escaping the call. -/
def convert_to_zulip_markdown (users : List SlackUser) (added_users : String → Option Nat)
    (text : Chars) : Option (Chars × List Nat × Bool) :=
  let t1 := convert_markdown_syntax text SLACK_STRIKETHROUGH_REGEX ("~~").data
  let t2 := convert_markdown_syntax t1 SLACK_ITALIC_REGEX ("*").data
  let t3 := convert_markdown_syntax t2 SLACK_BOLD_REGEX ("**").data
  let t4 := replaceAllSub ("<!everyone>").data ("@**all**").data (t3.length + 1) t3
  match tokenLoop users added_users (splitSp t4) with
  | none => none
  | some (tokens, mentioned_users_id, has_link) =>
    some (joinSp tokens, mentioned_users_id, has_link)

/-- String-level wrapper of `convert_to_zulip_markdown`. -/
def convertStr (users : List SlackUser) (added_users : String → Option Nat)
    (text : String) : Option (String × List Nat × Bool) :=
  (convert_to_zulip_markdown users added_users text.data).map
    (fun r => (String.mk r.1, r.2.1, r.2.2))

/-- One message record of a channel log, restricted to the fields the
message loop reads: `text`, the optional `subtype`, the optional top-level
`user`, the optional `file.user` fallback, `ts` (the float timestamp is
modelled as an integer; its value plays no role here) and `has_image`. -/
structure SlackMessage where
  text : String
  subtype : Option String
  user : Option String
  file_user : Option String
  ts : Int
  has_image : Bool
  deriving Repr, DecidableEq

/-- The fields of the `zulip_message` dictionary built by the message loop
(`rendered_content`, `edit_history` and `last_edit_time` are always `None`
and are omitted). -/
structure ZulipMessage where
  sending_client : Nat
  rendered_content_version : Nat
  has_image : Bool
  subject : String
  pub_date : Int
  id : Nat
  has_attachment : Bool
  sender : Nat
  content : String
  recipient : Nat
  has_link : Bool
  deriving Repr, DecidableEq

/-- The fields of a `zerver_subscription` record the message loop reads. -/
structure ZSubscription where
  recipient : Nat
  user_profile : Nat
  deriving Repr, DecidableEq

/-- One `usermessage` dictionary built by the message loop. -/
structure ZUserMessage where
  user_profile : Nat
  id : Nat
  flags_mask : Nat
  message : Nat
  deriving Repr, DecidableEq

/-- The inner subscription loop of the message loop: one usermessage per
subscription whose recipient is the message recipient, with flags 9 when
that subscriber was mentioned and 1 otherwise. -/
def mkUserMessages (zerver_subscription : List ZSubscription) (recipient : Nat)
    (mentioned_users_id : List Nat) (usermessage_id message_id : Nat) : List ZUserMessage :=
  match zerver_subscription with
  | [] => []
  | sub :: rest =>
    if sub.recipient = recipient then
      ⟨sub.user_profile, usermessage_id,
       if sub.user_profile ∈ mentioned_users_id then 9 else 1, message_id⟩ ::
        mkUserMessages rest recipient mentioned_users_id (usermessage_id + 1) message_id
    else mkUserMessages rest recipient mentioned_users_id usermessage_id message_id

/-- The per-message loop of the source's `channel_message_to_zerver_message`
(the surrounding file reads are abstracted into the given message list).
Faithful to the source order: the markdown rewrite runs first, then the
administrative subtypes are skipped, then the sender is resolved (the
eagerly evaluated `message.get` default makes `user` fall back to
`file.user`, and a missing sender, unknown `added_users` id or unknown
channel raises, modelled by `none`). -/
def channel_message_to_zerver_message
    (users : List SlackUser) (added_users : String → Option Nat)
    (added_channels : String → Option Nat) (zerver_subscription : List ZSubscription)
    (channel : String) (messages : List SlackMessage)
    (message_id usermessage_id : Nat) : Option (List ZulipMessage × List ZUserMessage) :=
  match messages with
  | [] => some ([], [])
  | message :: rest =>
    match convertStr users added_users message.text with
    | none => none
    | some (content, mentioned_users_id, has_link) =>
      if (message.subtype.map
            (fun st => st = "channel_join" || st = "channel_leave" || st = "channel_name")).getD
          false then
        channel_message_to_zerver_message users added_users added_channels zerver_subscription
          channel rest message_id usermessage_id
      else
        match (match message.user with
               | some u => some u
               | none => message.file_user) with
        | none => none
        | some u =>
          match added_users u with
          | none => none
          | some sender =>
            match added_channels channel with
            | none => none
            | some recipient =>
              let zulip_message : ZulipMessage :=
                ⟨1, 1, message.has_image, channel, message.ts, message_id, false,
                 sender, content, recipient, has_link⟩
              let ums := mkUserMessages zerver_subscription recipient mentioned_users_id
                           usermessage_id message_id
              match channel_message_to_zerver_message users added_users added_channels
                      zerver_subscription channel rest (message_id + 1)
                      (usermessage_id + ums.length) with
              | none => none
              | some (zms, zums) => some (zulip_message :: zms, ums ++ zums)

/-- Whether the pattern occurs as a contiguous sublist; the scan mirrors the
one `replaceAllSub` performs. -/
def containsPat (pat : Chars) : Chars → Bool
  | [] => pat.isPrefixOf []
  | c :: r => pat.isPrefixOf (c :: r) || containsPat pat r

/-- A delimiter regex cannot match at a position when its delimiter
character does not occur in the suffix. -/
theorem matchDelimHere_eq_none (rx : DelimRegex) (b : Bool) (s : Chars)
    (h : rx.delim ∉ s) : matchDelimHere rx b s = none := by
  match s with
  | [] => cases b <;> rfl
  | [c] =>
    have hc : ¬(c = rx.delim) := fun e => h (by simp [e])
    cases b <;> simp [matchDelimHere, hc]
  | c1 :: c2 :: r =>
    have hc1 : ¬(c1 = rx.delim) := fun e => h (by simp [e])
    have hc2 : ¬(c2 = rx.delim) := fun e => h (by simp [e])
    cases b <;> simp [matchDelimHere, hc1, hc2]

/-- A delimiter regex has no match anywhere in a text that does not contain
its delimiter character. -/
theorem searchDelim_eq_none (rx : DelimRegex) (b : Bool) (s : Chars)
    (h : rx.delim ∉ s) : searchDelim rx b s = none := by
  induction s generalizing b with
  | nil => simp [searchDelim, matchDelimHere_eq_none rx b [] h]
  | cons c r ih =>
    have h2 : rx.delim ∉ r := fun hm => h (List.mem_cons_of_mem _ hm)
    simp [searchDelim, matchDelimHere_eq_none rx b (c :: r) h, ih false h2]

/-- `finditer` produces no matches for a delimiter regex on a text that
does not contain its delimiter character. -/
theorem finditerDelim_eq_nil (rx : DelimRegex) (fuel : Nat) (b : Bool) (s : Chars)
    (h : rx.delim ∉ s) : finditerDelim rx fuel b s = [] := by
  cases fuel with
  | zero => rfl
  | succ n => simp [finditerDelim, searchDelim_eq_none rx b s h]

/-- A delimiter pass is the identity on a text that does not contain its
delimiter character. -/
theorem convert_markdown_syntax_id (rx : DelimRegex) (kw : Chars) (s : Chars)
    (h : rx.delim ∉ s) : convert_markdown_syntax s rx kw = s := by
  unfold convert_markdown_syntax
  rw [finditerDelim_eq_nil rx (s.length + 1) true s h]
  rfl

/-- `replaceAllSub` is the identity when the pattern has no occurrence. -/
theorem replaceAllSub_id (pat repl : Chars) (fuel : Nat) (s : Chars)
    (h : containsPat pat s = false) : replaceAllSub pat repl fuel s = s := by
  induction fuel generalizing s with
  | zero => rfl
  | succ n ih =>
    match s with
    | [] =>
      have hp : pat.isPrefixOf ([] : Chars) = false := by
        unfold containsPat at h; exact h
      simp [replaceAllSub, hp]
    | c :: r =>
      have hsplit : pat.isPrefixOf (c :: r) = false ∧ containsPat pat r = false := by
        have h1 := h
        unfold containsPat at h1
        cases hp : pat.isPrefixOf (c :: r) <;> cases hr : containsPat pat r <;>
          simp_all
      simp [replaceAllSub, hsplit.1, ih r hsplit.2]

/-- One token that matches neither the mention pattern nor the link
pattern passes through the token step unchanged, records nothing, and sets
no flag. -/
theorem tokenStep_id (users : List SlackUser) (au : String → Option Nat) (t : Chars)
    (hm : matchMentionHere t = none) (hl : linkMatch t = false) :
    tokenStep users au t = some (t, none, false) := by
  simp [tokenStep, hm, hl]

/-- The token loop is the identity (with no mentions and no link) on a
token list in which no token matches the mention or link pattern. -/
theorem tokenLoop_id (users : List SlackUser) (au : String → Option Nat) (ts : List Chars)
    (h : ∀ t ∈ ts, matchMentionHere t = none ∧ linkMatch t = false) :
    tokenLoop users au ts = some (ts, [], false) := by
  induction ts with
  | nil => rfl
  | cons t ts ih =>
    have ht := h t (List.mem_cons_self t ts)
    have hts : ∀ u ∈ ts, matchMentionHere u = none ∧ linkMatch u = false :=
      fun u hu => h u (List.mem_cons_of_mem _ hu)
    simp [tokenLoop, tokenStep_id users au t ht.1 ht.2, ih hts]

/-- `splitSp` never returns the empty list. -/
theorem splitSp_ne_nil (s : Chars) : splitSp s ≠ [] := by
  match s with
  | [] => simp [splitSp]
  | c :: r =>
    by_cases hc : c = ' '
    · simp [splitSp, hc]
    · simp only [splitSp, if_neg hc]
      match hsp : splitSp r with
      | [] => simp
      | t :: ts => simp

/-- Joining with single spaces undoes splitting on single spaces. -/
theorem joinSp_splitSp (s : Chars) : joinSp (splitSp s) = s := by
  induction s with
  | nil => rfl
  | cons c r ih =>
    by_cases hc : c = ' '
    · subst hc
      match hsp : splitSp r with
      | [] => exact absurd hsp (splitSp_ne_nil r)
      | t :: ts =>
        rw [hsp] at ih
        simp only [splitSp, if_pos rfl, hsp, joinSp, List.flatMap_cons, List.nil_append]
        simpa [joinSp] using ih
    · match hsp : splitSp r with
      | [] => exact absurd hsp (splitSp_ne_nil r)
      | t :: ts =>
        rw [hsp] at ih
        simp only [splitSp, if_neg hc, hsp, joinSp, List.cons_append]
        simpa [joinSp] using ih

/-- The whole rewrite is the identity (with no mentions and no link) on a
text containing none of the three delimiter characters, no occurrence of
the mention-everyone token, and no token matching the mention or link
pattern. -/
theorem convert_id (users : List SlackUser) (au : String → Option Nat) (s : Chars)
    (h1 : '~' ∉ s) (h2 : '_' ∉ s) (h3 : '*' ∉ s)
    (h4 : containsPat ("<!everyone>").data s = false)
    (h5 : ∀ t ∈ splitSp s, matchMentionHere t = none ∧ linkMatch t = false) :
    convert_to_zulip_markdown users au s = some (s, [], false) := by
  have e1 : convert_markdown_syntax s SLACK_STRIKETHROUGH_REGEX ("~~").data = s :=
    convert_markdown_syntax_id _ _ _ h1
  have e2 : convert_markdown_syntax s SLACK_ITALIC_REGEX ("*").data = s :=
    convert_markdown_syntax_id _ _ _ h2
  have e3 : convert_markdown_syntax s SLACK_BOLD_REGEX ("**").data = s :=
    convert_markdown_syntax_id _ _ _ h3
  have e4 : replaceAllSub ("<!everyone>").data ("@**all**").data (s.length + 1) s = s :=
    replaceAllSub_id _ _ _ _ h4
  have e5 : tokenLoop users au (splitSp s) = some (splitSp s, [], false) :=
    tokenLoop_id users au (splitSp s) h5
  simp only [convert_to_zulip_markdown, e1, e2, e3, e4, e5, joinSp_splitSp]

/-- C1: the claim says an unmatched mention token passes through unchanged
with no identifier recorded and no exception; in the code, when no
directory entry satisfies the matching rule the loop of `get_user_mentions`
never binds `mention`, and the following `re.sub` raises
`UnboundLocalError`.  With directory entry id U1 handle bob, the token
`<@U1|alice>` makes the whole rewrite raise (modelled by `none`). -/
theorem c1_unmatched_mention_raises :
    convertStr [⟨"U1", "bob", "Bob Smith", false⟩]
      (fun s => if s = "U1" then some 1 else none) "<@U1|alice>" = none := by
  decide

/-- C2: the claim says the rewrite of `a *bold* and _ital_ b` is
`a **bold** and *ital* b`; the code produces `a **bold* and *ital** b`,
because the italic pass first turns `_ital_` into `*ital*` and the greedy
bold pattern then matches from the first asterisk to the last one. -/
theorem c2_bold_italic_eval :
    convertStr [] (fun _ => none) "a *bold* and _ital_ b" =
      some ("a **bold* and *ital** b", [], false) := by
  decide

/-- C3 counterexample: the text `* <!everyone>` contains no match of any of
the three delimiter regexes (first three conjuncts), yet the rewrite is not
idempotent on it: one application yields `* @**all**`, and applying the
rewrite to that output yields `** @**all***`, because the mention-everyone
replacement inserts asterisks that the bold pass then matches. -/
theorem c3_counterexample :
    finditerDelim SLACK_STRIKETHROUGH_REGEX (("* <!everyone>").data.length + 1) true
        ("* <!everyone>").data = [] ∧
    finditerDelim SLACK_ITALIC_REGEX (("* <!everyone>").data.length + 1) true
        ("* <!everyone>").data = [] ∧
    finditerDelim SLACK_BOLD_REGEX (("* <!everyone>").data.length + 1) true
        ("* <!everyone>").data = [] ∧
    convertStr [] (fun _ => none) "* <!everyone>" = some ("* @**all**", [], false) ∧
    convertStr [] (fun _ => none) "* @**all**" = some ("** @**all***", [], false) :=
  ⟨by decide, by decide, by decide, by decide, by decide⟩

/-- C3 (amended): for a text containing none of the delimiter characters
`~`, `_`, `*`, no occurrence of the mention-everyone token, and no token
matching the mention or link pattern, the rewrite returns the text itself,
and re-running the rewrite on its own output yields the same result:
`rewrite (rewrite t) = rewrite t`. -/
theorem c3_amended_idempotent (users : List SlackUser) (au : String → Option Nat) (s : Chars)
    (h1 : '~' ∉ s) (h2 : '_' ∉ s) (h3 : '*' ∉ s)
    (h4 : containsPat ("<!everyone>").data s = false)
    (h5 : ∀ t ∈ splitSp s, matchMentionHere t = none ∧ linkMatch t = false) :
    (convert_to_zulip_markdown users au s).map (fun r => r.1) = some s ∧
    (convert_to_zulip_markdown users au s).bind
        (fun r => convert_to_zulip_markdown users au r.1) =
      convert_to_zulip_markdown users au s := by
  have h := convert_id users au s h1 h2 h3 h4 h5
  constructor
  · rw [h]
    rfl
  · rw [h]
    show convert_to_zulip_markdown users au s = some (s, [], false)
    exact h

/-- C3 witness: the amended idempotence at the concrete text `plain text`. -/
theorem c3_amended_idempotent_witness :
    (convert_to_zulip_markdown [] (fun _ => none) ("plain text").data).map (fun r => r.1) =
        some (("plain text").data) ∧
    (convert_to_zulip_markdown [] (fun _ => none) ("plain text").data).bind
        (fun r => convert_to_zulip_markdown [] (fun _ => none) r.1) =
      convert_to_zulip_markdown [] (fun _ => none) ("plain text").data :=
  c3_amended_idempotent [] (fun _ => none) ("plain text").data
    (by decide) (by decide) (by decide) (by decide) (by decide)

/-- C4 counterexample: with directory entry
`{id := U1, handle := bob, name := Bob Smith, deleted := false}` and the
caller's id map sending U1 to 7, the token `<@U1|bob>` is rewritten to
`@**Bob Smith** `, but the resolved-mention list is `[7]` — the image of
U1 under `added_users` — so the identifier string `U1` itself appears
nowhere in it. -/
theorem c4_counterexample :
    convertStr [⟨"U1", "bob", "Bob Smith", false⟩]
        (fun s => if s = "U1" then some 7 else none) "<@U1|bob>" =
      some ("@**Bob Smith** ", [7], false) ∧
    ∀ x ∈ ([7] : List Nat), Nat.repr x ≠ "U1" :=
  ⟨by decide, by decide⟩

/-- C4 (amended): with that directory entry and any id map sending U1 to
`n`, rewriting `<@U1|bob>` replaces the token by `@**Bob Smith** ` and
records `n`, the identifier the caller's map assigns to U1 (not the source
id string itself). -/
theorem c4_amended_mention_resolution (n : Nat) :
    convertStr [⟨"U1", "bob", "Bob Smith", false⟩]
      (fun s => if s = "U1" then some n else none) "<@U1|bob>" =
      some ("@**Bob Smith** ", [n], false) := by
  rfl

/-- C5: on a text containing none of the delimiter characters `~`, `_`,
`*`, no occurrence of the mention-everyone token, and no token matching the
mention or link pattern, the rewrite returns the text unchanged, an empty
resolved-mention list, and a false link flag. -/
theorem c5_no_constructs_identity (users : List SlackUser) (au : String → Option Nat)
    (s : Chars)
    (h1 : '~' ∉ s) (h2 : '_' ∉ s) (h3 : '*' ∉ s)
    (h4 : containsPat ("<!everyone>").data s = false)
    (h5 : ∀ t ∈ splitSp s, matchMentionHere t = none ∧ linkMatch t = false) :
    convert_to_zulip_markdown users au s = some (s, [], false) :=
  convert_id users au s h1 h2 h3 h4 h5

/-- C5 witness: the identity at the concrete text `hello world`. -/
theorem c5_no_constructs_identity_witness :
    convert_to_zulip_markdown [] (fun _ => none) ("hello world").data =
      some (("hello world").data, [], false) :=
  c5_no_constructs_identity [] (fun _ => none) ("hello world").data
    (by decide) (by decide) (by decide) (by decide) (by decide)

/-- C6: the single-token text `<https://example.com>` matches the link
pattern; the rewrite strips the angle brackets, returning
`https://example.com` with the link flag true and no mentions. -/
theorem c6_link_stripping :
    convertStr [] (fun _ => none) "<https://example.com>" =
      some ("https://example.com", [], true) := by
  decide

/-- C7 counterexample: the claim says a message of subtype channel-join is
skipped before it reaches the rewrite; in the code the rewrite runs first
(line order: convert, then the subtype check).  A channel-join message
whose text is an unmatched mention makes the whole loop raise (`none`),
which could not happen if the message were skipped before the rewrite. -/
theorem c7_counterexample :
    channel_message_to_zerver_message [⟨"U1", "bob", "Bob Smith", false⟩]
      (fun s => if s = "U1" then some 1 else none) (fun _ => some 1) [] "general"
      [⟨"<@U1|alice>", some "channel_join", some "U1", none, 0, false⟩] 1 1 = none := by
  decide

/-- C7 (amended): a message of subtype channel-join, channel-leave or
channel-name produces no message record and no usermessage record, but the
markdown rewrite is still applied to its text first, so the loop result on
such a single message equals the rewrite's outcome mapped to empty record
lists (in particular a rewrite failure still propagates). -/
theorem c7_amended_subtype_skip (users : List SlackUser) (au ach : String → Option Nat)
    (subs : List ZSubscription) (channel : String) (msg : SlackMessage)
    (mid umid : Nat) (st : String)
    (h1 : msg.subtype = some st)
    (h2 : st = "channel_join" ∨ st = "channel_leave" ∨ st = "channel_name") :
    channel_message_to_zerver_message users au ach subs channel [msg] mid umid =
      (convertStr users au msg.text).map (fun _ => ([], [])) := by
  have hcond : (msg.subtype.map
      (fun s2 => s2 = "channel_join" || s2 = "channel_leave" || s2 = "channel_name")).getD
        false = true := by
    rw [h1]
    rcases h2 with h | h | h <;> subst h <;> decide
  cases hc : convertStr users au msg.text with
  | none => simp [channel_message_to_zerver_message, hc]
  | some r =>
    obtain ⟨content, ids, link⟩ := r
    simp [channel_message_to_zerver_message, hc, hcond]

/-- C7 witness: a concrete channel-join message with a benign text yields
empty record lists. -/
theorem c7_amended_subtype_skip_witness :
    channel_message_to_zerver_message [] (fun _ => none) (fun _ => none) [] "general"
      [⟨"hello", some "channel_join", some "A1", none, 0, false⟩] 1 1 = some ([], []) :=
  (c7_amended_subtype_skip [] (fun _ => none) (fun _ => none) [] "general"
      ⟨"hello", some "channel_join", some "A1", none, 0, false⟩ 1 1 "channel_join"
      rfl (Or.inl rfl)).trans (by decide)

/-- C8: the display name used for mentions is the real-name field when the
record is not deleted and the field is nonempty, and the short handle
otherwise. -/
theorem c8_display_name (user : SlackUser) :
    get_user_full_name user =
      if user.deleted = false ∧ user.real_name ≠ "" then user.real_name else user.name := by
  unfold get_user_full_name
  by_cases hd : user.deleted = false <;> by_cases hr : user.real_name = "" <;> simp [hd, hr]

/-- C9: the rewrite is a pure function of the input text and directory: two
calls on identical inputs return identical rewritten text, mention lists
and link flags (and, the embedding being functional, cannot modify the
directory). -/
theorem c9_deterministic (users : List SlackUser) (au : String → Option Nat) (t : String)
    (r1 r2 : Option (String × List Nat × Bool))
    (h1 : r1 = convertStr users au t) (h2 : r2 = convertStr users au t) : r1 = r2 :=
  h1.trans h2.symm

/-- C9 witness: two calls on the concrete text `hi` agree. -/
theorem c9_deterministic_witness :
    convertStr [] (fun _ => none) "hi" = convertStr [] (fun _ => none) "hi" :=
  c9_deterministic [] (fun _ => none) "hi" _ _ rfl rfl

/-- C10: the mention-everyone rewrite is a substring replacement performed
after the delimiter passes and before the text is split into tokens (first
conjunct, the structural identity of the pipeline), and it rewrites every
occurrence of `<!everyone>`, including occurrences inside larger
whitespace-delimited tokens (second conjunct, a two-occurrence example
inside larger tokens). -/
theorem c10_everyone_substring :
    (∀ (users : List SlackUser) (au : String → Option Nat) (s : Chars),
      convert_to_zulip_markdown users au s =
        (let t3 := convert_markdown_syntax
                     ( convert_markdown_syntax
                       ( convert_markdown_syntax s SLACK_STRIKETHROUGH_REGEX ("~~").data)
                       SLACK_ITALIC_REGEX ("*").data)
                     SLACK_BOLD_REGEX ("**").data
         match tokenLoop users au
                 (splitSp (replaceAllSub ("<!everyone>").data ("@**all**").data
                   (t3.length + 1) t3)) with
         | none => none
         | some (tokens, ids, link) => some (joinSp tokens, ids, link))) ∧
    convertStr [] (fun _ => none) "x<!everyone>y z<!everyone>" =
      some ("x@**all**y z@**all**", [], false) :=
  ⟨fun _ _ _ => rfl, by decide⟩

end SlackImport
